import Mathlib

/-!
Verification development for the Agent Attestation Protocol (AAP) server.

The definitions below are a shallow embedding of the JavaScript sources:
  * `src/packages/server/challenges.js` — the challenge generator, the eight
    `CHALLENGE_TYPES` entries, `generate`, `validateBatch` and the constants;
  * `src/packages/server/middleware.js` — the `/verify` handler of
    `aapMiddleware` (batch mode);
  * the WebSocket sequential-mode server (`createAAPWebSocket`,
    `handleMessage`, `sendNextChallenge`).

JavaScript `number`s produced by `JSON.parse` are modelled as rationals;
`Date.now()` timestamps as integers.  The cryptographic signature check
(`verify`/`createProofData` from `aap-agent-core`, whose source is not part
of the verified tree) is an abstract boolean parameter of the middleware
context.
-/

namespace AAP

/-- Value of a hex digit character, `none` for non-hex characters. -/
def hexVal? (c : Char) : Option Nat :=
  if '0' ≤ c ∧ c ≤ '9' then some (c.toNat - '0'.toNat)
  else if 'a' ≤ c ∧ c ≤ 'f' then some (c.toNat - 'a'.toNat + 10)
  else if 'A' ≤ c ∧ c ≤ 'F' then some (c.toNat - 'A'.toNat + 10)
  else none

/-- Fold hex digits; stops at the first non-hex character. -/
def hexFold : List Char → Nat → Nat
  | [], acc => acc
  | c :: cs, acc =>
    match hexVal? c with
    | some v => hexFold cs (acc * 16 + v)
    | none => acc

/-- JS `parseInt(s, 16)` on strings with a hex-digit prefix (the only inputs
the source feeds it: slices of hex nonces).  A string with no leading hex
digit gives `NaN` in JS; here it gives `0` — every theorem below restricts
nonces to 32-character hex strings, where this case cannot arise. -/
def parseHexNat (s : String) : Nat := hexFold s.data 0

/-- JS `String.prototype.slice(a, b)` for non-negative indices. -/
def jsSlice (s : String) (a b : Nat) : String := ⟨(s.data.drop a).take (b - a)⟩

/-- Hex value of the character `s[i]`, as in `parseInt(nonce[i], 16)`.
Out-of-range or non-hex positions give `0` (in JS they give `NaN`; excluded
by the valid-nonce hypotheses of the theorems). -/
def hexDigitAt (s : String) (i : Nat) : Nat :=
  (hexVal? (s.data.getD i '0')).getD 0

/-- Is `c` a lowercase-hex character (`0`-`9`, `a`-`f`)? -/
def isHexChar (c : Char) : Bool :=
  decide (('0' ≤ c ∧ c ≤ '9') ∨ ('a' ≤ c ∧ c ≤ 'f'))

/-- Nonces produced by `generateNonce` (`randomBytes(16).toString('hex')`):
32 lowercase-hex characters. -/
def ValidNonce (s : String) : Prop :=
  s.length = 32 ∧ s.data.all isHexChar = true

instance (s : String) : Decidable (ValidNonce s) := by
  unfold ValidNonce; infer_instance

/-- ASCII-lowercase a string (JS `toLowerCase` on the ASCII words used here). -/
def strLower (s : String) : String := ⟨s.data.map Char.toLower⟩

/-- ASCII-uppercase a string (JS `toUpperCase`). -/
def strUpper (s : String) : String := ⟨s.data.map Char.toUpper⟩

/-- Boolean string order, JS `<` on strings (code-unit lexicographic; the
inputs here are ASCII). -/
def strLeB (a b : String) : Bool := decide (a ≤ b)

/-- Insert into a sorted list (helper for `insSort`). -/
def insertLe {α : Type} (le : α → α → Bool) (x : α) : List α → List α
  | [] => [x]
  | y :: ys => if le x y then x :: y :: ys else y :: insertLe le x ys

/-- Insertion sort; models JS `Array.prototype.sort` with the default
(string code-unit) comparator — the sorted result is unique for the
by-value string/char lists used here. -/
def insSort {α : Type} (le : α → α → Bool) : List α → List α
  | [] => []
  | x :: xs => insertLe le x (insSort le xs)

/-- Boolean list prefix test. -/
def isPrefB : List Char → List Char → Bool
  | [], _ => true
  | _ :: _, [] => false
  | a :: as, b :: bs => a == b && isPrefB as bs

/-- Boolean substring test (helper for `containsSubstrB`). -/
def containsSubB (pat : List Char) : List Char → Bool
  | [] => isPrefB pat []
  | c :: cs => isPrefB pat (c :: cs) || containsSubB pat cs

/-- JS `s.includes(pat)`. -/
def containsSubstrB (s pat : String) : Bool := containsSubB pat.data s.data

/-! ## JavaScript values and JSON parsing

`JsVal` models the values `JSON.parse` can produce.  Absent object
properties (JS `undefined`) are modelled with `Option JsVal` at use sites. -/

/-- A JSON value as produced by `JSON.parse`; numbers are exact rationals
(every JSON numeral denotes a terminating decimal). -/
inductive JsVal where
  | null : JsVal
  | bool (b : Bool) : JsVal
  | num (q : ℚ) : JsVal
  | str (s : String) : JsVal
  | arr (elems : List JsVal) : JsVal
  | obj (fields : List (String × JsVal)) : JsVal

/-- JS truthiness of a value (`NaN` cannot come out of `JSON.parse`). -/
def jsTruthy : JsVal → Bool
  | .null => false
  | .bool b => b
  | .num q => decide (q ≠ 0)
  | .str s => decide (s ≠ "")
  | .arr _ => true
  | .obj _ => true

/-- Property read `fields[k]`: the last binding wins, matching the
duplicate-key behaviour of `JSON.parse`; `none` is JS `undefined`. -/
def getF (fields : List (String × JsVal)) (k : String) : Option JsVal :=
  (fields.reverse.find? (fun p => p.1 == k)).map (fun p => p.2)

/-- Whitespace accepted by `JSON.parse`. -/
def isJsonWs (c : Char) : Bool :=
  c == ' ' || c == '\t' || c == '\n' || c == '\r'

/-- Drop leading JSON whitespace. -/
def skipWs : List Char → List Char
  | [] => []
  | c :: cs => if isJsonWs c then skipWs cs else c :: cs

/-- Lex the body of a JSON string literal (opening quote already consumed),
accumulating into `acc`; handles the JSON escape sequences and rejects raw
control characters, as `JSON.parse` does. -/
def lexStrA (acc : List Char) : List Char → Option (String × List Char)
  | [] => none
  | '"' :: cs => some (⟨acc.reverse⟩, cs)
  | '\\' :: 'u' :: a :: b :: c :: d :: cs =>
    match hexVal? a, hexVal? b, hexVal? c, hexVal? d with
    | some va, some vb, some vc, some vd =>
      lexStrA (Char.ofNat (((va * 16 + vb) * 16 + vc) * 16 + vd) :: acc) cs
    | _, _, _, _ => none
  | '\\' :: e :: cs =>
    if e = '"' then lexStrA ('"' :: acc) cs
    else if e = '\\' then lexStrA ('\\' :: acc) cs
    else if e = '/' then lexStrA ('/' :: acc) cs
    else if e = 'n' then lexStrA ('\n' :: acc) cs
    else if e = 't' then lexStrA ('\t' :: acc) cs
    else if e = 'r' then lexStrA ('\r' :: acc) cs
    else if e = 'b' then lexStrA (Char.ofNat 8 :: acc) cs
    else if e = 'f' then lexStrA (Char.ofNat 12 :: acc) cs
    else none
  | c :: cs => if c.toNat < 32 then none else lexStrA (c :: acc) cs

/-- Decimal digit value. -/
def digVal? (c : Char) : Option Nat :=
  if '0' ≤ c ∧ c ≤ '9' then some (c.toNat - '0'.toNat) else none

/-- Lex a run of decimal digits. -/
def lexDigits : List Char → List Nat × List Char
  | [] => ([], [])
  | c :: cs =>
    match digVal? c with
    | some v =>
      let r := lexDigits cs
      (v :: r.1, r.2)
    | none => ([], c :: cs)

/-- Combine a digit list into a natural number. -/
def digitsToNat (ds : List Nat) : Nat := ds.foldl (fun a d => a * 10 + d) 0

/-- Lex the integer part of a JSON number (`0`, or a nonzero digit followed
by digits; leading zeros rejected, as in `JSON.parse`). -/
def lexIntPart : List Char → Option (Nat × List Char)
  | '0' :: cs =>
    match cs with
    | c :: _ => if (digVal? c).isSome then none else some (0, cs)
    | [] => some (0, [])
  | c :: cs =>
    match digVal? c with
    | some v => if v = 0 then none else
        let r := lexDigits cs
        some (digitsToNat (v :: r.1), r.2)
    | none => none
  | [] => none

/-- Lex a JSON number into an exact rational. -/
def lexNum (cs0 : List Char) : Option (ℚ × List Char) :=
  let (neg, cs1) :=
    match cs0 with
    | '-' :: cs => (true, cs)
    | cs => (false, cs)
  match lexIntPart cs1 with
  | none => none
  | some (ip, cs2) =>
    let (fdigits, cs3) :=
      match cs2 with
      | '.' :: cs => lexDigits cs
      | cs => ([], cs)
    if cs2 ≠ cs3 ∧ fdigits = [] then none else
    let fracRead : Option (Nat × Nat × List Char) :=
      match cs2 with
      | '.' :: _ => if fdigits = [] then none else
          some (digitsToNat fdigits, fdigits.length, cs3)
      | _ => some (0, 0, cs2)
    match fracRead with
    | none => none
    | some (fv, fl, cs4) =>
      let expRead : Option (Int × List Char) :=
        match cs4 with
        | 'e' :: cs | 'E' :: cs =>
          let (esign, cs5) :=
            match cs with
            | '+' :: r => ((1 : Int), r)
            | '-' :: r => ((-1 : Int), r)
            | r => ((1 : Int), r)
          let (eds, cs6) := lexDigits cs5
          if eds = [] then none else some (esign * digitsToNat eds, cs6)
        | _ => some (0, cs4)
      match expRead with
      | none => none
      | some (e, cs7) =>
        let mant : ℚ := (ip : ℚ) + (fv : ℚ) / ((10 : ℚ) ^ fl)
        let scaled : ℚ :=
          if 0 ≤ e then mant * (10 : ℚ) ^ e.toNat else mant / (10 : ℚ) ^ (-e).toNat
        some ((if neg then -scaled else scaled), cs7)

mutual

/-- Parse one JSON value (fuel-indexed recursive descent). -/
def pVal : Nat → List Char → Option (JsVal × List Char)
  | 0, _ => none
  | f + 1, cs =>
    match skipWs cs with
    | '\x7b' :: rest => pObj f (skipWs rest)
    | '[' :: rest => pArr f (skipWs rest)
    | '"' :: rest => (lexStrA [] rest).map (fun p => (.str p.1, p.2))
    | 't' :: 'r' :: 'u' :: 'e' :: rest => some (.bool true, rest)
    | 'f' :: 'a' :: 'l' :: 's' :: 'e' :: rest => some (.bool false, rest)
    | 'n' :: 'u' :: 'l' :: 'l' :: rest => some (.null, rest)
    | rest => (lexNum rest).map (fun p => (.num p.1, p.2))

/-- Parse an object body (after `{` and whitespace). -/
def pObj : Nat → List Char → Option (JsVal × List Char)
  | 0, _ => none
  | f + 1, cs =>
    match cs with
    | '\x7d' :: rest => some (.obj [], rest)
    | _ => pMembers f cs []

/-- Parse object members. -/
def pMembers : Nat → List Char → List (String × JsVal) → Option (JsVal × List Char)
  | 0, _, _ => none
  | f + 1, cs, acc =>
    match skipWs cs with
    | '"' :: rest =>
      match lexStrA [] rest with
      | none => none
      | some (k, cs2) =>
        match skipWs cs2 with
        | ':' :: cs3 =>
          match pVal f cs3 with
          | none => none
          | some (v, cs4) =>
            match skipWs cs4 with
            | ',' :: cs5 => pMembers f cs5 (acc ++ [(k, v)])
            | '\x7d' :: cs5 => some (.obj (acc ++ [(k, v)]), cs5)
            | _ => none
        | _ => none
    | _ => none

/-- Parse an array body (after `[` and whitespace). -/
def pArr : Nat → List Char → Option (JsVal × List Char)
  | 0, _ => none
  | f + 1, cs =>
    match cs with
    | ']' :: rest => some (.arr [], rest)
    | _ => pElems f cs []

/-- Parse array elements. -/
def pElems : Nat → List Char → List JsVal → Option (JsVal × List Char)
  | 0, _, _ => none
  | f + 1, cs, acc =>
    match pVal f cs with
    | none => none
    | some (v, cs2) =>
      match skipWs cs2 with
      | ',' :: cs3 => pElems f cs3 (acc ++ [v])
      | ']' :: cs3 => some (.arr (acc ++ [v]), cs3)
      | _ => none

end

/-- JS `JSON.parse`: one value, trailing whitespace only. -/
def jsonParse (cs : List Char) : Option JsVal :=
  match pVal (cs.length * 2 + 8) cs with
  | some (v, rest) => if skipWs rest = [] then some v else none
  | none => none

/-- The regex `\{[\s\S]*\}` applied to an answer string: the slice from the
first `{` to the last `}`, when that span is non-degenerate. -/
def braceSlice (cs : List Char) : Option (List Char) :=
  let tail := cs.dropWhile (fun c => c ≠ '\x7b')
  match tail with
  | [] => none
  | _ =>
    let rev := tail.reverse.dropWhile (fun c => c ≠ '\x7d')
    if rev = [] then none else some rev.reverse

/-- The common front half of every validator in `CHALLENGE_TYPES`:
`solution.match(/\{[\s\S]*\}/)` followed by `JSON.parse` of the match.  The
slice starts with `{`, so a successful parse is always an object. -/
def parseAnswerObj (s : String) : Option (List (String × JsVal)) :=
  match braceSlice s.data with
  | none => none
  | some cs =>
    match jsonParse cs with
    | some (.obj fields) => some fields
    | _ => none

/-! ## JavaScript numeric and string coercions used by the validators -/

/-- Leading-float parse, JS `parseFloat` on a string: optional sign, then
the longest numeric prefix (`Infinity` inputs are not modelled; no
validator input here produces them). -/
def leadFloat (s : String) : Option ℚ :=
  let cs := s.data.dropWhile isJsonWs
  let signRead : Bool × List Char :=
    match cs with
    | '-' :: r => (true, r)
    | '+' :: r => (false, r)
    | r => (false, r)
  let (d1, cs2) := lexDigits signRead.2
  let fracRead : List Nat × List Char :=
    match cs2 with
    | '.' :: r => lexDigits r
    | r => ([], r)
  let d2 := fracRead.1
  if d1 = [] ∧ d2 = [] then none else
  let mant : ℚ := (digitsToNat d1 : ℚ) + (digitsToNat d2 : ℚ) / (10 : ℚ) ^ d2.length
  let e : ℤ :=
    match fracRead.2 with
    | 'e' :: r | 'E' :: r =>
      let esignRead : ℤ × List Char :=
        match r with
        | '+' :: t => (1, t)
        | '-' :: t => (-1, t)
        | t => (1, t)
      let (eds, _) := lexDigits esignRead.2
      if eds = [] then 0 else esignRead.1 * digitsToNat eds
    | _ => 0
  let v : ℚ := if 0 ≤ e then mant * (10 : ℚ) ^ e.toNat else mant / (10 : ℚ) ^ (-e).toNat
  some (if signRead.1 then -v else v)

/-- Leading-integer parse, JS `parseInt` with inferred base 10 (the hex
`0x` form does not occur among the values validated here). -/
def leadInt (s : String) : Option ℤ :=
  let cs := s.data.dropWhile isJsonWs
  let signRead : Bool × List Char :=
    match cs with
    | '-' :: r => (true, r)
    | '+' :: r => (false, r)
    | r => (false, r)
  let (ds, _) := lexDigits signRead.2
  if ds = [] then none else
  some ((if signRead.1 then -1 else 1) * (digitsToNat ds : ℤ))

/-- Truncation toward zero, the effect of `parseInt(String(q))` on the
number magnitudes occurring in this protocol (JS switches `String` to
exponent notation only beyond `1e21`/below `1e-6`, far outside the ranges
produced or accepted here). -/
def ratTrunc (q : ℚ) : ℤ := if 0 ≤ q then ⌊q⌋ else -⌊-q⌋

/-- JS `parseFloat(x)` for a possibly-absent property `x`: numbers pass
through; strings are prefix-parsed; `undefined`, `null`, booleans and
objects coerce to strings with no numeric prefix, hence `NaN` (`none`).
Arrays (whose coercion joins elements with commas) do not occur as the
numeric fields validated here and are mapped to `NaN`. -/
def jsParseFloat : Option JsVal → Option ℚ
  | some (.num q) => some q
  | some (.str s) => leadFloat s
  | _ => none

/-- JS `parseInt(x)` for a possibly-absent property `x`; see
`jsParseFloat` for the coercion boundary. -/
def jsParseInt : Option JsVal → Option ℤ
  | some (.num q) => some (ratTrunc q)
  | some (.str s) => leadInt s
  | _ => none

/-- Smallest `k ≤ fuel` with `d ∣ 10^k`, searching upward from `k`. -/
def decExpGo (d : Nat) : Nat → Nat → Option Nat
  | 0, _ => none
  | fuel + 1, k => if (10 : Nat) ^ k % d = 0 then some k else decExpGo d fuel (k + 1)

/-- JS `String(q)` for the numbers manipulated here: integers print plainly,
other terminating decimals print with a fractional part (the reduced
denominator of any `JSON.parse`d numeral divides a power of ten, so the
fallback branch is unreachable from parsed input; exponent display for
extreme magnitudes is outside the value ranges of this protocol). -/
def ratDecStr (q : ℚ) : String :=
  if q.den = 1 then toString q.num
  else
    let sign := if q.num < 0 then "-" else ""
    let n := q.num.natAbs
    let d := q.den
    match decExpGo d 64 0 with
    | some k =>
      let scaled := n * ((10 : Nat) ^ k / d)
      let ds := (toString scaled).data
      let padded := List.replicate (k + 1 - ds.length) '0' ++ ds
      let ip : List Char := padded.take (padded.length - k)
      let fp : List Char := padded.drop (padded.length - k)
      sign ++ (⟨ip⟩ : String) ++ "." ++ (⟨fp⟩ : String)
    | none => sign ++ toString n ++ "/" ++ toString d

mutual

/-- Structural size of a JSON value (recursion fuel for the coercions). -/
def jsSize : JsVal → Nat
  | .null => 1
  | .bool _ => 1
  | .num _ => 1
  | .str _ => 1
  | .arr xs => 1 + jsSizeL xs
  | .obj fs => 1 + jsSizeO fs

/-- Size of an element list. -/
def jsSizeL : List JsVal → Nat
  | [] => 0
  | v :: vs => jsSize v + jsSizeL vs

/-- Size of a field list. -/
def jsSizeO : List (String × JsVal) → Nat
  | [] => 0
  | (_, v) :: ps => jsSize v + jsSizeO ps

end

/-- Fuel-indexed JS `String(v)` (ToString coercion). -/
def jsStringOfF : Nat → JsVal → String
  | 0, _ => ""
  | f + 1, v =>
    match v with
    | .null => "null"
    | .bool true => "true"
    | .bool false => "false"
    | .num q => ratDecStr q
    | .str s => s
    | .arr xs => String.intercalate "," (xs.map (fun x =>
        match x with
        | .null => ""
        | y => jsStringOfF f y))
    | .obj _ => "[object Object]"

/-- JS `String(v)`; the recursion depth of a value is below its `jsSize`. -/
def jsStringOf (v : JsVal) : String := jsStringOfF (jsSize v) v

/-- JS `String(x)` for a possibly-absent property. -/
def jsStringOfU : Option JsVal → String
  | none => "undefined"
  | some v => jsStringOf v

/-- Two-digit hex rendering for control-character escapes. -/
def hexPair (n : Nat) : String := ⟨[Nat.digitChar (n / 16 % 16), Nat.digitChar (n % 16)]⟩

/-- JSON string-character escaping as `JSON.stringify` performs it. -/
def escapeChar (c : Char) : String :=
  if c = '"' then "\\\""
  else if c = '\\' then "\\\\"
  else if c = '\n' then "\\n"
  else if c = '\r' then "\\r"
  else if c = '\t' then "\\t"
  else if c.toNat < 32 then "\\u00" ++ hexPair c.toNat
  else ⟨[c]⟩

/-- Escape a whole string for JSON output. -/
def escapeStr (s : String) : String := s.data.foldl (fun acc c => acc ++ escapeChar c) ""

/-- Fuel-indexed `JSON.stringify`. -/
def jsStringifyF : Nat → JsVal → String
  | 0, _ => ""
  | f + 1, v =>
    match v with
    | .null => "null"
    | .bool true => "true"
    | .bool false => "false"
    | .num q => ratDecStr q
    | .str s => "\"" ++ escapeStr s ++ "\""
    | .arr xs => "[" ++ String.intercalate "," (xs.map (jsStringifyF f)) ++ "]"
    | .obj fs => "\x7b" ++ String.intercalate ","
        (fs.map (fun p => "\"" ++ escapeStr p.1 ++ "\":" ++ jsStringifyF f p.2)) ++ "\x7d"

/-- JS `JSON.stringify(v)`. -/
def jsStringify (v : JsVal) : String := jsStringifyF (jsSize v) v

/-! ## Challenge generator (`src/packages/server/challenges.js`) -/

/-- `generateSalt(nonce, offset)`: six hex characters, uppercased. -/
def generateSalt (nonce : String) (off : Nat) : String :=
  strUpper (jsSlice nonce off (off + 6))

/-- `seededNumber(nonce, offset, min, max)`. -/
def seededNumber (nonce : String) (off mi ma : Nat) : Nat :=
  parseHexNat (jsSlice nonce off (off + 4)) % (ma - mi + 1) + mi

/-- The inner collision-avoidance loop of `seededSelect`: advance `idx`
cyclically until it is unused (fuel `len` always suffices, since fewer than
`len` indices are in `used` at every call site). -/
def findFreeIdx (used : List Nat) (len : Nat) : Nat → Nat → Nat
  | 0, idx => idx
  | fuel + 1, idx =>
    if used.contains idx then findFreeIdx used len fuel ((idx + 1) % len) else idx

/-- `seededSelect(arr, nonce, count, offset)`: deterministic distinct picks
from `pool`, seeded by a four-hex-digit slice of the nonce. -/
def seededSelect (pool : List String) (nonce : String) (count off : Nat) : List String :=
  let seed := parseHexNat (jsSlice nonce off (off + 4))
  let len := pool.length
  let n := min count len
  ((List.range n).foldl
    (fun (st : List Nat × List String) i =>
      let idx := findFreeIdx st.1 len len ((seed + i * 7) % len)
      (idx :: st.1, st.2 ++ [pool.getD idx ""]))
    ([], [])).2

/-- `WORD_POOLS.animals`. -/
def animalsPool : List String :=
  ["cat", "dog", "rabbit", "tiger", "lion", "elephant", "giraffe", "penguin",
   "eagle", "shark", "wolf", "bear", "fox", "deer", "owl"]

/-- `WORD_POOLS.fruits`. -/
def fruitsPool : List String :=
  ["apple", "banana", "orange", "grape", "strawberry", "watermelon", "peach",
   "kiwi", "mango", "cherry", "lemon", "lime", "pear", "plum"]

/-- `WORD_POOLS.colors`. -/
def colorsPool : List String :=
  ["red", "blue", "yellow", "green", "purple", "orange", "pink", "black",
   "white", "brown", "gray", "cyan", "magenta"]

/-- `WORD_POOLS.countries`. -/
def countriesPool : List String :=
  ["Korea", "Japan", "USA", "UK", "France", "Germany", "Australia", "Canada",
   "Brazil", "India", "Italy", "Spain", "Mexico"]

/-- `WORD_POOLS.verbs`. -/
def verbsPool : List String :=
  ["runs", "eats", "sleeps", "plays", "works", "studies", "travels", "cooks",
   "reads", "writes", "sings", "dances"]

/-- `WORD_POOLS.adjectives`. -/
def adjectivesPool : List String :=
  ["big", "small", "fast", "slow", "beautiful", "cute", "delicious",
   "interesting", "bright", "dark"]

/-- `WORD_POOLS[category]` keyed lookup. -/
def WORD_POOLS (category : String) : List String :=
  if category = "animals" then animalsPool
  else if category = "fruits" then fruitsPool
  else if category = "colors" then colorsPool
  else if category = "countries" then countriesPool
  else if category = "verbs" then verbsPool
  else if category = "adjectives" then adjectivesPool
  else []

/-- Result of one `CHALLENGE_TYPES[type].generate(nonce)` call: the prompt,
the diagnostic `expected` object, and the validator closure. -/
structure GenChallenge where
  challenge_string : String
  expected : List (String × JsVal)
  validate : String → Bool

/-- The salt-echo test `obj.salt !== salt` (strict equality against the
issued salt string). -/
def saltOkB (fields : List (String × JsVal)) (salt : String) : Bool :=
  match getF fields "salt" with
  | some (.str s) => s == salt
  | _ => false

/-- Shared shape of every validator in `CHALLENGE_TYPES`: extract and parse
the embedded JSON object (`none` ⇒ `false`, the caught-exception path),
check the salt echo, then run the type-specific field comparison. -/
def mkValidate (salt : String) (rest : List (String × JsVal) → Bool) : String → Bool :=
  fun sol =>
    match parseAnswerObj sol with
    | none => false
    | some fields => saltOkB fields salt && rest fields

/-- `obj.items || obj.animals || obj.fruits || obj.colors || []`: the first
truthy field among the listed keys, defaulting to an empty array. -/
def firstTruthy (fields : List (String × JsVal)) : List String → JsVal
  | [] => .arr []
  | k :: ks =>
    match getF fields k with
    | some v => if jsTruthy v then v else firstTruthy fields ks
    | none => firstTruthy fields ks

/-- `.map(s => s.toLowerCase())` over a candidate array: succeeds only on an
array of strings (any other shape throws in JS and lands in the `catch`). -/
def allStrings : JsVal → Option (List String)
  | .arr xs => xs.mapM (fun x => match x with | .str s => some s | _ => none)
  | _ => none

/-- `CHALLENGE_TYPES.nlp_extract.generate`. -/
def nlpExtractGen (nonce : String) : GenChallenge :=
  let salt := generateSalt nonce 0
  let category := ["animals", "fruits", "colors"].getD (hexDigitAt nonce 0 % 3) ""
  let pool := WORD_POOLS category
  let targets := seededSelect pool nonce 2 0
  let verb := (seededSelect verbsPool nonce 1 4).getD 0 ""
  let t0 := targets.getD 0 ""
  let t1 := targets.getD 1 ""
  let sentence := s!"The {t0} and {t1} {verb} in the park."
  { challenge_string :=
      "[REQ-" ++ salt ++ "] Extract only the " ++ category ++
      " from the following sentence.\nSentence: \"" ++ sentence ++
      "\"\nResponse format: \x7b\"salt\": \"" ++ salt ++
      "\", \"items\": [\"item1\", \"item2\"]\x7d"
    expected :=
      [("salt", .str salt), ("items", .arr ((insSort strLeB targets).map .str))]
    validate := mkValidate salt (fun fields =>
      match allStrings (firstTruthy fields ["items", "animals", "fruits", "colors"]) with
      | some items =>
        insSort strLeB (items.map strLower) == insSort strLeB (targets.map strLower)
      | none => false) }

/-- `Math.round(q * 100) / 100`, the two-decimal rounding of `nlp_math`. -/
def jsRound2 (q : ℚ) : ℚ := ((round (q * 100) : ℤ) : ℚ) / 100

/-- `CHALLENGE_TYPES.nlp_math.generate`. -/
def nlpMathGen (nonce : String) : GenChallenge :=
  let salt := generateSalt nonce 2
  let a := seededNumber nonce 0 10 50
  let b := seededNumber nonce 2 5 20
  let c := seededNumber nonce 4 2 5
  let t := hexDigitAt nonce 6 % 3
  let text :=
    if t = 0 then s!"Subtract {b} from {a}, then multiply the result by {c}."
    else if t = 1 then s!"Add {a} and {b} together, then divide by {c}."
    else s!"Divide {a} by {c}, then add {b} to the result."
  let answer : ℚ :=
    if t = 0 then ((a : ℚ) - (b : ℚ)) * (c : ℚ)
    else if t = 1 then ((a : ℚ) + (b : ℚ)) / (c : ℚ)
    else (a : ℚ) / (c : ℚ) + (b : ℚ)
  let expectedQ := jsRound2 answer
  { challenge_string :=
      "[REQ-" ++ salt ++ "] " ++ text ++
      "\nResponse format: \x7b\"salt\": \"" ++ salt ++ "\", \"result\": number\x7d"
    expected := [("salt", .str salt), ("result", .num expectedQ)]
    validate := mkValidate salt (fun fields =>
      match jsParseFloat (getF fields "result") with
      | some r => decide (|r - expectedQ| < 1 / 100)
      | none => false) }

/-- Hyphen-interleave the characters of a string (`split('').join('-')`). -/
def hyphenate (s : String) : String :=
  String.intercalate "-" (s.data.map (fun c => (⟨[c]⟩ : String)))

/-- Boolean char order for `sort()` on single-character strings. -/
def charLeB (a b : Char) : Bool := decide (a ≤ b)

/-- `CHALLENGE_TYPES.nlp_transform.generate`. -/
def nlpTransformGen (nonce : String) : GenChallenge :=
  let salt := generateSalt nonce 4
  let input := jsSlice nonce 8 14
  let tt := hexDigitAt nonce 6 % 4
  let instruction :=
    if tt = 0 then s!"Reverse the string \"{input}\" and convert it to uppercase."
    else if tt = 1 then s!"Extract only the digits from \"{input}\" and calculate their sum."
    else if tt = 2 then s!"Extract only the letters from \"{input}\" and sort them alphabetically."
    else s!"Insert a hyphen \"-\" between each character of \"{input}\"."
  let expectedV : JsVal :=
    if tt = 0 then .str (strUpper ⟨input.data.reverse⟩)
    else if tt = 1 then
      .num ((input.data.foldl (fun acc c => acc + ((digVal? c).getD 0)) 0 : Nat) : ℚ)
    else if tt = 2 then
      .str ⟨insSort charLeB (input.data.filter (fun c => (digVal? c).isSome ∨
        ('a' ≤ c ∧ c ≤ 'z') ∨ ('A' ≤ c ∧ c ≤ 'Z')))⟩
    else .str (hyphenate input)
  { challenge_string :=
      "[REQ-" ++ salt ++ "] " ++ instruction ++
      "\nResponse format: \x7b\"salt\": \"" ++ salt ++ "\", \"output\": \"result\"\x7d"
    expected := [("salt", .str salt), ("output", expectedV)]
    validate := mkValidate salt (fun fields =>
      let output := jsStringOfU (getF fields "output")
      let expStr := jsStringOf expectedV
      output == expStr || strLower output == strLower expStr) }

/-- `CHALLENGE_TYPES.nlp_logic.generate`. -/
def nlpLogicGen (nonce : String) : GenChallenge :=
  let salt := generateSalt nonce 6
  let a := seededNumber nonce 0 10 100
  let b := seededNumber nonce 2 10 100
  let threshold := seededNumber nonce 4 20 80
  let t := hexDigitAt nonce 6 % 3
  let text :=
    if t = 0 then
      s!"If the larger number between {a} and {b} is greater than {threshold}, answer \"YES\". Otherwise, answer \"NO\"."
    else if t = 1 then
      s!"If the sum of {a} and {b} is less than {threshold * 2}, answer \"SMALL\". Otherwise, answer \"LARGE\"."
    else
      s!"If {a} is even and {b} is odd, answer \"MIXED\". Otherwise, answer \"SAME\"."
  let answer :=
    if t = 0 then (if max a b > threshold then "YES" else "NO")
    else if t = 1 then (if a + b < threshold * 2 then "SMALL" else "LARGE")
    else (if a % 2 = 0 ∧ b % 2 = 1 then "MIXED" else "SAME")
  { challenge_string :=
      "[REQ-" ++ salt ++ "] " ++ text ++
      "\nResponse format: \x7b\"salt\": \"" ++ salt ++ "\", \"answer\": \"your answer\"\x7d"
    expected := [("salt", .str salt), ("answer", .str answer)]
    validate := mkValidate salt (fun fields =>
      match getF fields "answer" with
      | some (.str s) => strUpper s == strUpper answer
      | _ => false) }

/-- `CHALLENGE_TYPES.nlp_count.generate`.  The source shuffles the item
list with `sort(() => parseInt(nonce.slice(10,12),16) % 2 - 0.5)` — a
constant comparator, for which the ECMAScript sort order is
implementation-defined; V8's binary-insertion TimSort leaves the array
unchanged for a constant comparator, which is what is modelled (only the
prompt text depends on it; the validator checks the count alone). -/
def nlpCountGen (nonce : String) : GenChallenge :=
  let salt := generateSalt nonce 8
  let category := ["animals", "fruits", "colors"].getD (hexDigitAt nonce 0 % 3) ""
  let pool := WORD_POOLS category
  let count1 := seededNumber nonce 0 2 4
  let count2 := seededNumber nonce 2 1 3
  let items1 := seededSelect pool nonce count1 0
  let items2 := seededSelect countriesPool nonce count2 8
  let allItems := items1 ++ items2
  let joined := String.intercalate ", " allItems
  let sentence := s!"I see {joined} in the picture."
  { challenge_string :=
      "[REQ-" ++ salt ++ "] Count only the " ++ category ++
      " in the following sentence.\nSentence: \"" ++ sentence ++
      "\"\nResponse format: \x7b\"salt\": \"" ++ salt ++ "\", \"count\": number\x7d"
    expected := [("salt", .str salt), ("count", .num (count1 : ℚ))]
    validate := mkValidate salt (fun fields =>
      jsParseInt (getF fields "count") == some (count1 : ℤ)) }

/-- `CHALLENGE_TYPES.nlp_multistep.generate`. -/
def nlpMultistepGen (nonce : String) : GenChallenge :=
  let salt := generateSalt nonce 10
  let n0 := seededNumber nonce 0 1 9
  let n1 := seededNumber nonce 2 1 9
  let n2 := seededNumber nonce 4 1 9
  let n3 := seededNumber nonce 6 1 9
  let sum := n0 + n1 + n2 + n3
  let mn := Nat.min n0 (Nat.min n1 (Nat.min n2 n3))
  let step2 := sum * mn
  let mx := Nat.max n0 (Nat.max n1 (Nat.max n2 n3))
  let final : ℤ := (step2 : ℤ) - (mx : ℤ)
  let joined := String.intercalate ", " ([n0, n1, n2, n3].map toString)
  { challenge_string :=
      "[REQ-" ++ salt ++ "] Follow these instructions in order:\n1. Add all the numbers in [" ++
      joined ++
      "] together.\n2. Multiply the result by the smallest number.\n3. Subtract the largest number from that result.\nResponse format: \x7b\"salt\": \"" ++
      salt ++ "\", \"result\": final_value\x7d"
    expected := [("salt", .str salt), ("result", .num (final : ℚ))]
    validate := mkValidate salt (fun fields =>
      jsParseInt (getF fields "result") == some final) }

/-- `CHALLENGE_TYPES.nlp_pattern.generate`. -/
def nlpPatternGen (nonce : String) : GenChallenge :=
  let salt := generateSalt nonce 12
  let start := seededNumber nonce 0 1 10
  let step := seededNumber nonce 2 2 5
  let pt := hexDigitAt nonce 4 % 3
  let seqL : List Nat :=
    if pt = 0 then [start, start + step, start + step * 2, start + step * 3]
    else if pt = 1 then [start, start * 2, start * 4, start * 8]
    else [start, step, start + step, step + (start + step)]
  let next2 : List Nat :=
    if pt = 0 then [start + step * 4, start + step * 5]
    else if pt = 1 then [start * 16, start * 32]
    else
      let s2 := start + step
      let s3 := step + s2
      [s2 + s3, s3 + (s2 + s3)]
  let joined := String.intercalate ", " (seqL.map toString)
  let instruction := s!"Find the pattern and provide the next 2 numbers: [{joined}, ?, ?]"
  let e0 : ℤ := (next2.getD 0 0 : ℤ)
  let e1 : ℤ := (next2.getD 1 0 : ℤ)
  { challenge_string :=
      "[REQ-" ++ salt ++ "] " ++ instruction ++
      "\nResponse format: \x7b\"salt\": \"" ++ salt ++ "\", \"next\": [number1, number2]\x7d"
    expected := [("salt", .str salt), ("next", .arr (next2.map (fun n => .num (n : ℚ))))]
    validate := mkValidate salt (fun fields =>
      match getF fields "next" with
      | some (.arr xs) =>
        jsParseInt (xs.get? 0) == some e0 && jsParseInt (xs.get? 1) == some e1
      | _ => false) }

/-- `CHALLENGE_TYPES.nlp_analysis.generate`. -/
def nlpAnalysisGen (nonce : String) : GenChallenge :=
  let salt := generateSalt nonce 14
  let words := seededSelect (animalsPool ++ fruitsPool) nonce 5 0
  let at0 := hexDigitAt nonce 8 % 3
  let wordList := String.intercalate ", " words
  let expectedW :=
    if at0 = 0 then
      match words with
      | [] => ""
      | w :: ws => ws.foldl (fun acc b => if b.length ≤ acc.length then acc else b) w
    else if at0 = 1 then
      match words with
      | [] => ""
      | w :: ws => ws.foldl (fun acc b => if acc.length ≤ b.length then acc else b) w
    else (insSort strLeB words).getD 0 ""
  let instruction :=
    if at0 = 0 then s!"Find the longest word from the following list: {wordList}"
    else if at0 = 1 then s!"Find the shortest word from the following list: {wordList}"
    else s!"Find the word that comes first alphabetically from the following list: {wordList}"
  { challenge_string :=
      "[REQ-" ++ salt ++ "] " ++ instruction ++
      "\nResponse format: \x7b\"salt\": \"" ++ salt ++ "\", \"answer\": \"word\"\x7d"
    expected := [("salt", .str salt), ("answer", .str expectedW)]
    validate := mkValidate salt (fun fields =>
      match getF fields "answer" with
      | some (.str s) => strLower s == strLower expectedW
      | _ => false) }

/-- `Object.keys(CHALLENGE_TYPES)`, in insertion order (`getTypes()`). -/
def getTypes : List String :=
  ["nlp_extract", "nlp_math", "nlp_transform", "nlp_logic", "nlp_count",
   "nlp_multistep", "nlp_pattern", "nlp_analysis"]

/-- The dispatch `CHALLENGE_TYPES[t].generate(nonce)`; the final branch is
unreachable through `generate`, which only selects members of `getTypes`. -/
def challengeGenFor (t : String) (nonce : String) : GenChallenge :=
  if t = "nlp_extract" then nlpExtractGen nonce
  else if t = "nlp_math" then nlpMathGen nonce
  else if t = "nlp_transform" then nlpTransformGen nonce
  else if t = "nlp_logic" then nlpLogicGen nonce
  else if t = "nlp_count" then nlpCountGen nonce
  else if t = "nlp_multistep" then nlpMultistepGen nonce
  else if t = "nlp_pattern" then nlpPatternGen nonce
  else nlpAnalysisGen nonce

/-- The salt slice offset each challenge type passes to `generateSalt`. -/
def saltOffsetFor (t : String) : Nat :=
  if t = "nlp_extract" then 0
  else if t = "nlp_math" then 2
  else if t = "nlp_transform" then 4
  else if t = "nlp_logic" then 6
  else if t = "nlp_count" then 8
  else if t = "nlp_multistep" then 10
  else if t = "nlp_pattern" then 12
  else 14

/-- The salt issued with the challenge of type `t` for `nonce`. -/
def issuedSalt (t : String) (nonce : String) : String :=
  generateSalt nonce (saltOffsetFor t)

/-- Result of the exported `generate(nonce, type)`. -/
structure Generated where
  type : String
  challenge_string : String
  validate : String → Bool
  expected : List (String × JsVal)

/-- The exported `generate(nonce, type?)`.  The only randomness in the
source is `Math.floor(Math.random() * types.length)` choosing a fallback
type when `type` is absent or invalid; it is exposed here as the explicit
draw `r`, so that independence from `r` states the absence of any other
randomness. -/
def generate (nonce : String) (type? : Option String) (r : Nat) : Generated :=
  let types := getTypes
  let selected :=
    match type? with
    | some t =>
      if t ≠ "" ∧ types.contains t = true then t else types.getD (r % types.length) ""
    | none => types.getD (r % types.length) ""
  let g := challengeGenFor selected nonce
  { type := selected
    challenge_string := g.challenge_string
    validate := g.validate
    expected := g.expected }

/-- Protocol constant `BATCH_SIZE` (v2.5). -/
def BATCH_SIZE : Nat := 5

/-- Protocol constant `MAX_RESPONSE_TIME_MS` (v2.5). -/
def MAX_RESPONSE_TIME_MS : Nat := 8000

/-- Protocol constant `CHALLENGE_EXPIRY_MS`. -/
def CHALLENGE_EXPIRY_MS : Nat := 60000

/-! ## Batch verification middleware (`src/packages/server/middleware.js`)

The `/verify` handler of `aapMiddleware`, as a function from the challenge
store, the request body and the current time to the updated store and the
HTTP response.  Response bodies are modelled by their decision-relevant
fields (`verified`, `error`, the per-check boolean trail, `batchResult`);
ancillary echo fields (`role`, `publicId`, `timing`, …) are omitted. -/

/-- The `checks` boolean trail accumulated by the `/verify` handler. -/
structure Checks where
  inputValid : Bool
  challengeExists : Bool
  notExpired : Bool
  solutionsExist : Bool
  solutionsValid : Bool
  responseTimeValid : Bool
  signatureValid : Bool

/-- `checks` before any check has passed. -/
def checksNone : Checks := ⟨false, false, false, false, false, false, false⟩

/-- `checks` after input validation. -/
def checksIn : Checks := ⟨true, false, false, false, false, false, false⟩

/-- `checks` after the ledger lookup. -/
def checksEx : Checks := ⟨true, true, false, false, false, false, false⟩

/-- `checks` after the expiry check. -/
def checksNx : Checks := ⟨true, true, true, false, false, false, false⟩

/-- `checks` after the solutions-shape check. -/
def checksSe : Checks := ⟨true, true, true, true, false, false, false⟩

/-- `checks` after the batch validation. -/
def checksSv : Checks := ⟨true, true, true, true, true, false, false⟩

/-- `checks` after the timing check. -/
def checksRt : Checks := ⟨true, true, true, true, true, true, false⟩

/-- `checks` after every check. -/
def checksAll : Checks := ⟨true, true, true, true, true, true, true⟩

/-- The `batchResult` object returned by `validateBatch`. -/
structure BatchRes where
  passed : Nat
  total : Nat
  allPassed : Bool
  results : List (Nat × Bool)

/-- A `/verify` HTTP response (decision-relevant fields). -/
structure VerifyResponse where
  status : Nat
  verified : Bool
  error : Option String
  checks : Checks
  batchResult : Option BatchRes

/-- A `/verify` request body; each field is an arbitrary JSON value or
absent (`undefined`). -/
structure VerifyRequest where
  solutions : Option JsVal
  signature : Option JsVal
  publicKey : Option JsVal
  publicId : Option JsVal
  nonce : Option JsVal
  timestamp : Option JsVal
  responseTimeMs : Option JsVal

/-- A stored ledger entry (the parts `/verify` consumes; the `challenges`
array and the diagnostic `expected` are not read by the handler). -/
structure StoredChallenge where
  validators : List (String → Bool)
  batchSize : Nat
  timestamp : ℤ
  expiresAt : ℤ

/-- The in-memory challenge map, keyed by nonce. -/
def Ledger : Type := String → Option StoredChallenge

/-- `challenges.delete(nonce)`. -/
def eraseL (m : Ledger) (n : String) : Ledger :=
  fun k => if k = n then none else m k

/-- Check 0 on `nonce`: `!nonce || typeof nonce !== 'string' || nonce.length !== 32`. -/
def nonceFieldOk : Option JsVal → Bool
  | some (.str s) => decide (s.length = 32)
  | _ => false

/-- Check 0 on `publicId`: string of length 20. -/
def publicIdFieldOk : Option JsVal → Bool
  | some (.str s) => decide (s.length = 20)
  | _ => false

/-- Check 0 on `signature`: string of length at least 50. -/
def signatureFieldOk : Option JsVal → Bool
  | some (.str s) => decide (50 ≤ s.length)
  | _ => false

/-- Check 0 on `publicKey`: string containing the PEM marker. -/
def publicKeyFieldOk : Option JsVal → Bool
  | some (.str s) => containsSubstrB s "BEGIN PUBLIC KEY"
  | _ => false

/-- Check 0 on `timestamp`: truthy number (so `0` is rejected). -/
def timestampFieldOk : Option JsVal → Bool
  | some (.num q) => decide (q ≠ 0)
  | _ => false

/-- Check 0 on `responseTimeMs`: `!x || typeof x !== 'number' || x < 0` —
a truthy, non-negative number, so `0` is rejected by the truthiness test. -/
def rtFieldOk : Option JsVal → Bool
  | some (.num q) => decide (q ≠ 0) && decide (¬ q < 0)
  | _ => false

/-- The input-validation chain (check 0); `some msg` is the 400 error
returned before any ledger access. -/
def inputError (req : VerifyRequest) : Option String :=
  if nonceFieldOk req.nonce = false then some "Invalid nonce format"
  else if publicIdFieldOk req.publicId = false then some "Invalid publicId format"
  else if signatureFieldOk req.signature = false then some "Invalid signature format"
  else if publicKeyFieldOk req.publicKey = false then some "Invalid publicKey format"
  else if timestampFieldOk req.timestamp = false then some "Invalid timestamp"
  else if rtFieldOk req.responseTimeMs = false then some "Invalid responseTimeMs"
  else none

/-- The nonce string of a request that passed input validation. -/
def reqNonceStr (req : VerifyRequest) : String :=
  match req.nonce with
  | some (.str s) => s
  | _ => ""

/-- The client-reported `responseTimeMs` of a request that passed input
validation. -/
def reqRt (req : VerifyRequest) : ℚ :=
  match req.responseTimeMs with
  | some (.num q) => q
  | _ => 0

/-- The string handed to a validator:
`typeof solution === 'string' ? solution : JSON.stringify(solution)`. -/
def coerceSolution : JsVal → String
  | .str s => s
  | v => jsStringify v

/-- `validateBatch(validators, solutions)`: each slot passes when the
solution is present, truthy, and accepted by its validator. -/
def validateBatch (validators : List (String → Bool)) (solutions : List JsVal) : BatchRes :=
  let results := (List.range validators.length).map (fun i =>
    let valid :=
      match solutions.get? i with
      | none => false
      | some v => jsTruthy v && (validators.getD i (fun _ => false)) (coerceSolution v)
    (i, valid))
  let p := (results.filter (fun r => r.2)).length
  ⟨p, validators.length, p == validators.length, results⟩

/-- `minPassCount || size` (`0` and `null` both fall back to the batch
size). -/
def requiredPass (minPassCount : Option Nat) (size : Nat) : Nat :=
  match minPassCount with
  | some m => if m = 0 then size else m
  | none => size

/-- Middleware options and collaborators: the configured limits and the
abstract signature check (`createProofData` + `verify` from
`aap-agent-core`, outside the verified tree). -/
structure VerifyCtx where
  maxResponseTimeMs : ℤ
  minPassCount : Option Nat
  sigCheck : VerifyRequest → Bool

/-- The server-side measurement `serverResponseTime = Date.now() - challenge.timestamp`. -/
def serverTimeQ (ch : StoredChallenge) (now : ℤ) : ℚ := ((now - ch.timestamp : ℤ) : ℚ)

/-- `Math.max(responseTimeMs, serverResponseTime)`, the effective response
time the liveness check uses. -/
def effectiveTime (req : VerifyRequest) (ch : StoredChallenge) (now : ℤ) : ℚ :=
  max (reqRt req) (serverTimeQ ch now)

/-- The `solutions?.length || 0` rendering used in the count-mismatch
message. -/
def gotDisplay : Option JsVal → String
  | some (.arr xs) => toString xs.length
  | some (.str s) => if s.length = 0 then "0" else toString s.length
  | some (.obj fs) =>
    match getF fs "length" with
    | some v => if jsTruthy v then jsStringOf v else "0"
    | none => "0"
  | _ => "0"

/-- The proof-of-intelligence failure message. -/
def poiMsg (p size needC : Nat) : String :=
  s!"Proof of Intelligence failed: {p}/{size} correct (need {needC})"

/-- The proof-of-liveness failure message. -/
def slowMsg (eff lim : ℚ) : String :=
  s!"Response too slow: {eff}ms > {lim}ms (Proof of Liveness failed)"

/-- The solution-count mismatch message. -/
def countMsg (size : Nat) (got : String) : String :=
  s!"Expected {size} solutions, got {got}"

/-- Checks 3–6 of `/verify` (everything after the entry has been consumed):
solutions shape, proof of intelligence, proof of liveness, proof of
identity. -/
def verdict (ctx : VerifyCtx) (ch : StoredChallenge) (req : VerifyRequest) (now : ℤ) :
    VerifyResponse :=
  let size := ch.batchSize
  match req.solutions with
  | some (.arr sols) =>
    if sols.length = size then
      let br := validateBatch ch.validators sols
      let needC := requiredPass ctx.minPassCount size
      if br.passed < needC then
        ⟨400, false, some (poiMsg br.passed size needC), checksSe, some br⟩
      else
        let eff := effectiveTime req ch now
        let lim : ℚ := (ctx.maxResponseTimeMs : ℚ)
        if eff > lim then
          ⟨400, false, some (slowMsg eff lim), checksSv, none⟩
        else if ctx.sigCheck req = false then
          ⟨400, false, some "Invalid signature (Proof of Identity failed)", checksRt, none⟩
        else
          ⟨200, true, none, checksAll, some br⟩
    else
      ⟨400, false, some (countMsg size (gotDisplay req.solutions)), checksNx, none⟩
  | _ =>
    ⟨400, false, some (countMsg size (gotDisplay req.solutions)), checksNx, none⟩

/-- The `/verify` handler: input validation, ledger lookup, expiry check,
one-time consumption, then `verdict`.  Returns the updated ledger and the
response.  The source deletes the entry right after the expiry check and
then runs checks 3–6 on values it already destructured, so both
entry-present branches return the erased ledger. -/
def aapVerify (ctx : VerifyCtx) (ledger : Ledger) (req : VerifyRequest) (now : ℤ) :
    Ledger × VerifyResponse :=
  match inputError req with
  | some msg => (ledger, ⟨400, false, some msg, checksNone, none⟩)
  | none =>
    let n := reqNonceStr req
    match ledger n with
    | none => (ledger, ⟨400, false, some "Challenge not found or already used", checksIn, none⟩)
    | some ch =>
      if now > ch.expiresAt then
        (eraseL ledger n, ⟨400, false, some "Challenge expired", checksEx, none⟩)
      else
        (eraseL ledger n, verdict ctx ch req now)

/-! ## Sequential-mode WebSocket server (`createAAPWebSocket`)

The per-connection session state machine, message handling and challenge
pacing.  Challenge generation for this transport derives salts with
SHA-256 (`node:crypto`) and is outside the embedding: sessions simply carry
their generated challenge list.  Timers (`setTimeout`) are modelled as
recorded deadlines, and the 50 ms-delayed `sendNextChallenge` as an
explicit `scheduleNext` output consumed by the connection's event loop. -/

/-- One generated sequential-mode challenge: prompt text and validator over
the parsed `answer` value. -/
structure WsChallenge where
  text : String
  validate : JsVal → Bool

/-- Per-connection session state (`sessions` map entry). -/
structure WsSession where
  current : Nat
  challenges : List WsChallenge
  publicId : Option String
  challengeStart : Option ℤ
  timerDeadline : Option ℤ
  answers : List JsVal
  timings : List ℤ

/-- Parsed client→server messages (`msg.type` dispatch; `other` covers
every unknown tag). -/
inductive WsIn where
  | ready (publicId : Option String) : WsIn
  | answer (ans : JsVal) : WsIn
  | other (tag : String) : WsIn

/-- Server→client frames relevant to the state machine. -/
inductive WsOut where
  | errorOut (code : String) (message : String) : WsOut
  | challengeOut (id : Nat) (total : Nat) (challenge : String) (timeLimit : ℤ) : WsOut
  | ackOut (id : Nat) (valid : Bool) (responseMs : ℤ) : WsOut
  | resultOut (verified : Bool) (message : String) (passed : Option Nat) (total : Nat) : WsOut
  | scheduleNext : WsOut
deriving DecidableEq

/-- Connection options plus the fresh random suffix used for anonymous
identities (`'anon-' + randomBytes(4).toString('hex')`), supplied by the
environment. -/
structure WsCfg where
  challengeCount : Nat
  timePerChallengeMs : ℤ
  anonId : String

/-- A challenge slot (out-of-range reads are unreachable: `current` stays
below `challengeCount` whenever a challenge is sent). -/
def wsChallengeAt (s : WsSession) (i : Nat) : WsChallenge :=
  s.challenges.getD i ⟨"", fun _ => false⟩

/-- `sendNextChallenge(session, timePerChallengeMs)` at time `now`: stamps
`challengeStart`, arms the per-challenge timer (`limit + 100` grace) and
emits the `challenge` frame. -/
def sendNextChallenge (s : WsSession) (limit : ℤ) (now : ℤ) : WsSession × WsOut :=
  ({ s with challengeStart := some now, timerDeadline := some (now + limit + 100) },
   .challengeOut s.current s.challenges.length (wsChallengeAt s s.current).text limit)

/-- Number of recorded answers revalidated successfully at scoring time
(`answers.filter((a, i) => challenges[i].validate(a)).length`). -/
def wsCountPassed (s : WsSession) : Nat :=
  ((List.range s.answers.length).filter (fun i =>
    match s.answers.get? i with
    | some a => (wsChallengeAt s i).validate a
    | none => false)).length

/-- `handleMessage(session, msg, options)` at time `now`: the `ready`,
`answer` and unknown-type branches, returning the updated session and the
emitted frames.  `finishSession` is modelled by its `result` frame and
timer cleanup (token issuance is outside the claims' scope). -/
def handleMessage (cfg : WsCfg) (s : WsSession) (msg : WsIn) (now : ℤ) :
    WsSession × List WsOut :=
  match msg with
  | .ready pid =>
    if s.current ≠ 0 then
      (s, [.errorOut "ALREADY_STARTED" "Already started"])
    else
      let chosen :=
        match pid with
        | some p => if p ≠ "" then p else cfg.anonId
        | none => cfg.anonId
      let s1 := { s with publicId := some chosen }
      let r := sendNextChallenge s1 cfg.timePerChallengeMs now
      (r.1, [r.2])
  | .answer a =>
    match s.challengeStart with
    | none => (s, [.errorOut "NO_CHALLENGE" "No active challenge"])
    | some st =>
      let s1 := { s with timerDeadline := none }
      let elapsed := now - st
      let cur := s1.current
      let lim := cfg.timePerChallengeMs
      if elapsed > lim then
        (s1, [.resultOut false s!"Too slow on challenge #{cur}: {elapsed}ms > {lim}ms" none
               s1.challenges.length])
      else
        let s2 := { s1 with answers := s1.answers ++ [a], timings := s1.timings ++ [elapsed] }
        let valid := (wsChallengeAt s2 s2.current).validate a
        let ack := WsOut.ackOut s2.current valid elapsed
        let s3 := { s2 with current := s2.current + 1 }
        if s3.current < cfg.challengeCount then
          (s3, [ack, .scheduleNext])
        else
          let passed := wsCountPassed s3
          let cnt := cfg.challengeCount
          let success := passed == cnt
          let msg := if success then "All challenges passed" else s!"Failed: {passed}/{cnt}"
          (s3, [ack, .resultOut success msg (some passed) s3.challenges.length])
  | .other _ => (s, [.errorOut "UNKNOWN_TYPE" "Unknown message type"])

/-! ## Concrete fixtures used to instantiate the theorems below -/

/-- The reference nonce of the specification's arithmetic scenario. -/
def nonceW : String := "a1b2c3d4e5f6a7b8c9d0e1f2a3b4c5d6"

/-- A PEM-marked public-key string passing check 0. -/
def pemW : String := "-----BEGIN PUBLIC KEY-----\nMIIBIjANBg\n-----END PUBLIC KEY-----"

/-- A signature string of the minimum accepted length. -/
def sigW : String := "MEUCIQDx7vN0Zz1hQ2pL5kDq8mXo4aTbetc9rWJgyAfB3CslugIgVw=="

/-- A 20-character public id. -/
def pidW : String := "0123456789abcdef0123"

/-- A validator fixture accepting exactly the solution string `"ok"`. -/
def vOkW : String → Bool := fun s => s == "ok"

/-- A stored batch entry: five `vOkW` validators, issued at 1000 ms,
expiring at 61000 ms. -/
def chW : StoredChallenge := ⟨[vOkW, vOkW, vOkW, vOkW, vOkW], 5, 1000, 61000⟩

/-- A ledger holding `chW` under `nonceW` and nothing else. -/
def ledgerW : Ledger := fun k => if k = nonceW then some chW else none

/-- Middleware options fixture: 8000 ms limit, `minPassCount = 4`, a
signature check that accepts. -/
def ctxW : VerifyCtx := ⟨8000, some 4, fun _ => true⟩

/-- Batch solutions: four correct, one incorrect. -/
def sols4W : List JsVal := [.str "ok", .str "ok", .str "ok", .str "ok", .str "no"]

/-- Batch solutions: three correct, two incorrect. -/
def sols3W : List JsVal := [.str "ok", .str "ok", .str "ok", .str "no", .str "no"]

/-- A well-formed `/verify` request carrying `sols4W`. -/
def reqW : VerifyRequest :=
  ⟨some (.arr sols4W), some (.str sigW), some (.str pemW), some (.str pidW),
   some (.str nonceW), some (.num 1700000000000), some (.num 100)⟩

/-- `reqW`, but carrying `sols3W`. -/
def reqW3 : VerifyRequest := { reqW with solutions := some (.arr sols3W) }

/-- `reqW`, but truthfully reporting a zero-millisecond response time. -/
def reqZeroRtW : VerifyRequest := { reqW with responseTimeMs := some (.num 0) }

/-- Sequential-mode options fixture (7 challenges, 1200 ms each, a fixed
anonymous id draw). -/
def wsCfgW : WsCfg := ⟨7, 1200, "anon-0a0b0c0d"⟩

/-- A sequential-mode challenge fixture. -/
def wsChW : WsChallenge := ⟨"q0", fun _ => false⟩

/-- A fresh session right after the handshake: no `ready` processed yet. -/
def wsSessW : WsSession := ⟨0, List.replicate 7 wsChW, none, none, none, [], []⟩

/-! ## Shared lemmas -/

/-- Validators return `false` when no JSON object can be extracted and
parsed from the answer (the regex-miss and caught-exception paths). -/
theorem mkValidate_parse_none (salt : String) (rest : List (String × JsVal) → Bool)
    (s : String) (hp : parseAnswerObj s = none) : mkValidate salt rest s = false := by
  unfold mkValidate
  rw [hp]

/-- Validators return `false` when the parsed object fails the salt echo. -/
theorem mkValidate_salt_false (salt : String) (rest : List (String × JsVal) → Bool)
    (s : String) (fields : List (String × JsVal))
    (hp : parseAnswerObj s = some fields) (hs : saltOkB fields salt = false) :
    mkValidate salt rest s = false := by
  unfold mkValidate
  rw [hp]
  simp [hs]

/-- Every challenge type's validator is `mkValidate` of the salt issued for
that type and nonce. -/
theorem validate_shape (t nonce : String) (ht : t ∈ getTypes) :
    ∃ rest, (challengeGenFor t nonce).validate = mkValidate (issuedSalt t nonce) rest := by
  have ht' : t = "nlp_extract" ∨ t = "nlp_math" ∨ t = "nlp_transform" ∨ t = "nlp_logic" ∨
      t = "nlp_count" ∨ t = "nlp_multistep" ∨ t = "nlp_pattern" ∨ t = "nlp_analysis" := by
    simpa [getTypes] using ht
  rcases ht' with rfl | rfl | rfl | rfl | rfl | rfl | rfl | rfl <;> exact ⟨_, rfl⟩

/-- `challenges.delete(nonce)` makes the nonce unresolvable. -/
theorem eraseL_self (m : Ledger) (n : String) : eraseL m n n = none := by
  simp [eraseL]

/-- The not-found response of `/verify`. -/
theorem aapVerify_not_found (ctx : VerifyCtx) (ledger : Ledger) (req : VerifyRequest)
    (now : ℤ) (hin : inputError req = none) (h : ledger (reqNonceStr req) = none) :
    aapVerify ctx ledger req now =
      (ledger, ⟨400, false, some "Challenge not found or already used", checksIn, none⟩) := by
  simp only [aapVerify, hin, h]

/-- When the entry exists, `/verify` always deletes it, whatever the
verdict. -/
theorem aapVerify_found_fst (ctx : VerifyCtx) (ledger : Ledger) (req : VerifyRequest)
    (now : ℤ) (ch : StoredChallenge)
    (hin : inputError req = none) (h : ledger (reqNonceStr req) = some ch) :
    (aapVerify ctx ledger req now).1 = eraseL ledger (reqNonceStr req) := by
  simp only [aapVerify, hin, h]
  by_cases hexp : now > ch.expiresAt <;> simp [hexp]

/-- The expired response of `/verify`. -/
theorem aapVerify_found_snd_expired (ctx : VerifyCtx) (ledger : Ledger) (req : VerifyRequest)
    (now : ℤ) (ch : StoredChallenge)
    (hin : inputError req = none) (h : ledger (reqNonceStr req) = some ch)
    (hexp : now > ch.expiresAt) :
    (aapVerify ctx ledger req now).2 = ⟨400, false, some "Challenge expired", checksEx, none⟩ := by
  simp only [aapVerify, hin, h]
  simp [hexp]

/-- Past the expiry check, the `/verify` response is the `verdict`
pipeline's. -/
theorem aapVerify_found_snd_live (ctx : VerifyCtx) (ledger : Ledger) (req : VerifyRequest)
    (now : ℤ) (ch : StoredChallenge)
    (hin : inputError req = none) (h : ledger (reqNonceStr req) = some ch)
    (hexp : ¬ now > ch.expiresAt) :
    (aapVerify ctx ledger req now).2 = verdict ctx ch req now := by
  simp only [aapVerify, hin, h]
  simp [hexp]

/-- Every `verdict` branch reports the expiry check as passed. -/
theorem verdict_notExpired (ctx : VerifyCtx) (ch : StoredChallenge) (req : VerifyRequest)
    (now : ℤ) : (verdict ctx ch req now).checks.notExpired = true := by
  unfold verdict
  cases req.solutions with
  | none => rfl
  | some v =>
    cases v with
    | arr xs =>
      dsimp only
      split_ifs <;> rfl
    | null => rfl
    | bool b => rfl
    | num q => rfl
    | str s => rfl
    | obj fs => rfl

/-! ## Claim theorems -/

/-- C1: a well-formed batch `/verify` request whose nonce has a live ledger
entry removes that entry by completion regardless of the verdict, so any
second well-formed request for the same nonce fails with the
challenge-not-found error. -/
theorem verify_consumes_nonce_and_replay_not_found
    (ctx : VerifyCtx) (ledger : Ledger) (req : VerifyRequest) (now : ℤ)
    (hin : inputError req = none)
    (hlive : (ledger (reqNonceStr req)).isSome = true) :
    (aapVerify ctx ledger req now).1 (reqNonceStr req) = none ∧
    ∀ (req2 : VerifyRequest) (now2 : ℤ),
      reqNonceStr req2 = reqNonceStr req →
      inputError req2 = none →
      (aapVerify ctx (aapVerify ctx ledger req now).1 req2 now2).2.verified = false ∧
      (aapVerify ctx (aapVerify ctx ledger req now).1 req2 now2).2.error =
        some "Challenge not found or already used" ∧
      (aapVerify ctx (aapVerify ctx ledger req now).1 req2 now2).2.status = 400 := by
  obtain ⟨ch, h⟩ := Option.isSome_iff_exists.mp hlive
  have h1 : (aapVerify ctx ledger req now).1 = eraseL ledger (reqNonceStr req) :=
    aapVerify_found_fst ctx ledger req now ch hin h
  have hnone : (aapVerify ctx ledger req now).1 (reqNonceStr req) = none := by
    rw [h1]
    exact eraseL_self _ _
  refine ⟨hnone, fun req2 now2 hn2 hin2 => ?_⟩
  have h2 : aapVerify ctx (aapVerify ctx ledger req now).1 req2 now2 =
      ((aapVerify ctx ledger req now).1,
        ⟨400, false, some "Challenge not found or already used", checksIn, none⟩) :=
    aapVerify_not_found _ _ _ _ hin2 (by rw [hn2, hnone])
  rw [h2]
  exact ⟨rfl, rfl, rfl⟩

/-- C1 witness: a concrete first verification consumes `nonceW`, and the
concrete replay is answered with the not-found error. -/
theorem verify_consumes_nonce_and_replay_not_found_witness :
    (aapVerify ctxW ledgerW reqW 2000).1 (reqNonceStr reqW) = none ∧
    (aapVerify ctxW (aapVerify ctxW ledgerW reqW 2000).1 reqW 3000).2.error =
      some "Challenge not found or already used" := by
  have h := verify_consumes_nonce_and_replay_not_found ctxW ledgerW reqW 2000
    (by decide) (by decide)
  exact ⟨h.1, (h.2 reqW 3000 rfl (by decide)).2.1⟩

/-- C3: with a live ledger entry, verification at `expiresAt + 1` or later
fails with the expired error, while at any time not after `expiresAt` the
expiry check passes and the request proceeds to the remaining (`verdict`)
checks. -/
theorem expiry_boundary
    (ctx : VerifyCtx) (ledger : Ledger) (req : VerifyRequest) (now : ℤ)
    (ch : StoredChallenge)
    (hin : inputError req = none)
    (hch : ledger (reqNonceStr req) = some ch) :
    (now ≥ ch.expiresAt + 1 →
      (aapVerify ctx ledger req now).2.error = some "Challenge expired" ∧
      (aapVerify ctx ledger req now).2.verified = false ∧
      (aapVerify ctx ledger req now).2.status = 400) ∧
    (now ≤ ch.expiresAt →
      (aapVerify ctx ledger req now).2 = verdict ctx ch req now ∧
      (verdict ctx ch req now).checks.notExpired = true) := by
  constructor
  · intro hge
    have hexp : now > ch.expiresAt := by omega
    rw [aapVerify_found_snd_expired ctx ledger req now ch hin hch hexp]
    exact ⟨rfl, rfl, rfl⟩
  · intro hle
    have hexp : ¬ now > ch.expiresAt := by omega
    exact ⟨aapVerify_found_snd_live ctx ledger req now ch hin hch hexp,
      verdict_notExpired ctx ch req now⟩

/-- C3 witness: at 61001 ms (entry expires at 61000 ms) the concrete
request gets the expired error; at 60999 ms it reaches the remaining
checks. -/
theorem expiry_boundary_witness :
    (aapVerify ctxW ledgerW reqW 61001).2.error = some "Challenge expired" ∧
    (aapVerify ctxW ledgerW reqW 60999).2 = verdict ctxW chW reqW 60999 := by
  refine ⟨((expiry_boundary ctxW ledgerW reqW 61001 chW (by decide) rfl).1 (by decide)).1, ?_⟩
  exact ((expiry_boundary ctxW ledgerW reqW 60999 chW (by decide) rfl).2 (by decide)).1

/-- C10: when the five earlier field checks pass but `responseTimeMs` fails
its check — which a value of `0` does via JS truthiness, as does an absent
or non-numeric value — `/verify` responds 400 `Invalid responseTimeMs`
before any ledger access: the ledger is returned untouched and the check
trail shows no progress, so the nonce's entry stays live and the prover
cannot verify. -/
theorem zero_response_time_rejected_before_lookup
    (ctx : VerifyCtx) (ledger : Ledger) (req : VerifyRequest) (now : ℤ)
    (h1 : nonceFieldOk req.nonce = true)
    (h2 : publicIdFieldOk req.publicId = true)
    (h3 : signatureFieldOk req.signature = true)
    (h4 : publicKeyFieldOk req.publicKey = true)
    (h5 : timestampFieldOk req.timestamp = true)
    (h6 : rtFieldOk req.responseTimeMs = false) :
    (aapVerify ctx ledger req now).1 = ledger ∧
    (aapVerify ctx ledger req now).2.status = 400 ∧
    (aapVerify ctx ledger req now).2.error = some "Invalid responseTimeMs" ∧
    (aapVerify ctx ledger req now).2.verified = false ∧
    (aapVerify ctx ledger req now).2.checks = checksNone ∧
    rtFieldOk (some (.num 0)) = false ∧
    rtFieldOk none = false ∧
    (∀ s : String, rtFieldOk (some (.str s)) = false) := by
  have hie : inputError req = some "Invalid responseTimeMs" := by
    simp [inputError, h1, h2, h3, h4, h5, h6]
  simp [aapVerify, hie, rtFieldOk]

/-- C10 witness: the concrete request reporting `responseTimeMs = 0` is
rejected with the dedicated error and `nonceW` stays consumable. -/
theorem zero_response_time_rejected_before_lookup_witness :
    (aapVerify ctxW ledgerW reqZeroRtW 2000).2.error = some "Invalid responseTimeMs" ∧
    (aapVerify ctxW ledgerW reqZeroRtW 2000).1 nonceW = some chW := by
  have h := zero_response_time_rejected_before_lookup ctxW ledgerW reqZeroRtW 2000
    (by decide) (by decide) (by decide) (by decide) (by decide) (by decide)
  refine ⟨h.2.2.1, ?_⟩
  rw [h.1]
  rfl

/-- Once the solutions-shape and intelligence checks succeed, `verdict` is
the three-way timing/signature/success decision. -/
theorem verdict_reaches_timing
    (ctx : VerifyCtx) (ch : StoredChallenge) (req : VerifyRequest) (now : ℤ)
    (sols : List JsVal)
    (hsol : req.solutions = some (.arr sols))
    (hlen : sols.length = ch.batchSize)
    (hpass : ¬ (validateBatch ch.validators sols).passed <
        requiredPass ctx.minPassCount ch.batchSize) :
    verdict ctx ch req now =
      (if effectiveTime req ch now > (ctx.maxResponseTimeMs : ℚ) then
        ⟨400, false, some (slowMsg (effectiveTime req ch now) (ctx.maxResponseTimeMs : ℚ)),
         checksSv, none⟩
      else if ctx.sigCheck req = false then
        ⟨400, false, some "Invalid signature (Proof of Identity failed)", checksRt, none⟩
      else
        ⟨200, true, none, checksAll, some (validateBatch ch.validators sols)⟩) := by
  unfold verdict
  rw [hsol]
  dsimp only
  rw [if_pos hlen, if_neg hpass]

/-- C2: for every batch request that reaches the timing check, the liveness
verdict is decided by `effective = max(responseTimeMs, now - issuedAt)`:
it passes iff `effective ≤ maxResponseTimeMs`, so exactly the limit passes,
`limit + 1` fails, and since `effective` never falls below the
server-measured time, no reported (in particular no understated) client
value can pass a request whose server-measured latency exceeds the limit. -/
theorem batch_timing_effective_max_boundary
    (ctx : VerifyCtx) (ledger : Ledger) (req : VerifyRequest) (now : ℤ)
    (ch : StoredChallenge) (sols : List JsVal)
    (hin : inputError req = none)
    (hch : ledger (reqNonceStr req) = some ch)
    (hexp : ¬ now > ch.expiresAt)
    (hsol : req.solutions = some (.arr sols))
    (hlen : sols.length = ch.batchSize)
    (hpass : ¬ (validateBatch ch.validators sols).passed <
        requiredPass ctx.minPassCount ch.batchSize) :
    ((aapVerify ctx ledger req now).2.checks.responseTimeValid = true ↔
      effectiveTime req ch now ≤ (ctx.maxResponseTimeMs : ℚ)) ∧
    (effectiveTime req ch now = (ctx.maxResponseTimeMs : ℚ) →
      (aapVerify ctx ledger req now).2.checks.responseTimeValid = true) ∧
    (effectiveTime req ch now = (ctx.maxResponseTimeMs : ℚ) + 1 →
      (aapVerify ctx ledger req now).2.checks.responseTimeValid = false ∧
      (aapVerify ctx ledger req now).2.verified = false ∧
      (aapVerify ctx ledger req now).2.status = 400) ∧
    (serverTimeQ ch now > (ctx.maxResponseTimeMs : ℚ) →
      (aapVerify ctx ledger req now).2.checks.responseTimeValid = false ∧
      (aapVerify ctx ledger req now).2.verified = false) ∧
    reqRt req ≤ effectiveTime req ch now ∧
    serverTimeQ ch now ≤ effectiveTime req ch now := by
  have hresp : (aapVerify ctx ledger req now).2 = verdict ctx ch req now :=
    aapVerify_found_snd_live ctx ledger req now ch hin hch hexp
  have hv := verdict_reaches_timing ctx ch req now sols hsol hlen hpass
  have hA : (aapVerify ctx ledger req now).2.checks.responseTimeValid = true ↔
      effectiveTime req ch now ≤ (ctx.maxResponseTimeMs : ℚ) := by
    rw [hresp, hv]
    by_cases heff : effectiveTime req ch now > (ctx.maxResponseTimeMs : ℚ)
    · rw [if_pos heff]
      constructor
      · intro h
        exact absurd h (by simp [checksSv])
      · intro h
        exact absurd heff (not_lt.mpr h)
    · rw [if_neg heff]
      by_cases hsig : ctx.sigCheck req = false
      · rw [if_pos hsig]
        exact ⟨fun _ => not_lt.mp heff, fun _ => rfl⟩
      · rw [if_neg hsig]
        exact ⟨fun _ => not_lt.mp heff, fun _ => rfl⟩
  have hFail : effectiveTime req ch now > (ctx.maxResponseTimeMs : ℚ) →
      (aapVerify ctx ledger req now).2.checks.responseTimeValid = false ∧
      (aapVerify ctx ledger req now).2.verified = false ∧
      (aapVerify ctx ledger req now).2.status = 400 := by
    intro heff
    rw [hresp, hv, if_pos heff]
    exact ⟨rfl, rfl, rfl⟩
  refine ⟨hA, ?_, ?_, ?_, le_max_left _ _, le_max_right _ _⟩
  · intro he
    exact hA.mpr (le_of_eq he)
  · intro he
    exact hFail (by rw [he]; linarith)
  · intro hsrv
    have heff : effectiveTime req ch now > (ctx.maxResponseTimeMs : ℚ) :=
      lt_of_lt_of_le hsrv (le_max_right _ _)
    exact ⟨(hFail heff).1, (hFail heff).2.1⟩

/-- C2 witness: the concrete request (client-reported 100 ms, server
measures 1000 ms against an 8000 ms limit) passes the timing check, and its
effective time dominates both measurements. -/
theorem batch_timing_effective_max_boundary_witness :
    (aapVerify ctxW ledgerW reqW 2000).2.checks.responseTimeValid = true ∧
    serverTimeQ chW 2000 ≤ effectiveTime reqW chW 2000 := by
  have h := batch_timing_effective_max_boundary ctxW ledgerW reqW 2000 chW sols4W
    (by decide) rfl (by decide) rfl (by decide) (by decide)
  exact ⟨h.1.mpr (by norm_num [effectiveTime, serverTimeQ, reqRt, reqW, chW, ctxW]),
    h.2.2.2.2.2⟩

/-- C4: with `batchSize = 5` and `minPassCount = 4`, a batch in which the
validators accept exactly 4 of the 5 solutions passes the intelligence
check (and verifies when timing and signature also pass), while exactly 3
acceptances yields the proof-of-intelligence failure with the per-item
breakdown attached. -/
theorem threshold_four_of_five
    (ctx : VerifyCtx) (ledger : Ledger) (req : VerifyRequest) (now : ℤ)
    (ch : StoredChallenge) (sols : List JsVal)
    (hin : inputError req = none)
    (hch : ledger (reqNonceStr req) = some ch)
    (hexp : ¬ now > ch.expiresAt)
    (hmin : ctx.minPassCount = some 4)
    (hsize : ch.batchSize = 5)
    (hsol : req.solutions = some (.arr sols))
    (hlen : sols.length = 5) :
    ((validateBatch ch.validators sols).passed = 4 →
      (aapVerify ctx ledger req now).2.checks.solutionsValid = true ∧
      (effectiveTime req ch now ≤ (ctx.maxResponseTimeMs : ℚ) →
        ctx.sigCheck req = true →
        (aapVerify ctx ledger req now).2.verified = true ∧
        (aapVerify ctx ledger req now).2.status = 200)) ∧
    ((validateBatch ch.validators sols).passed = 3 →
      (aapVerify ctx ledger req now).2.verified = false ∧
      (aapVerify ctx ledger req now).2.status = 400 ∧
      (aapVerify ctx ledger req now).2.error =
        some "Proof of Intelligence failed: 3/5 correct (need 4)" ∧
      (aapVerify ctx ledger req now).2.batchResult =
        some (validateBatch ch.validators sols)) := by
  have hneed : requiredPass ctx.minPassCount ch.batchSize = 4 := by
    rw [hmin, hsize]
    rfl
  have hresp : (aapVerify ctx ledger req now).2 = verdict ctx ch req now :=
    aapVerify_found_snd_live ctx ledger req now ch hin hch hexp
  constructor
  · intro h4
    have hpass : ¬ (validateBatch ch.validators sols).passed <
        requiredPass ctx.minPassCount ch.batchSize := by
      rw [hneed, h4]
      omega
    have hv := verdict_reaches_timing ctx ch req now sols hsol (by rw [hlen, hsize]) hpass
    constructor
    · rw [hresp, hv]
      split_ifs <;> rfl
    · intro htime hsig
      rw [hresp, hv, if_neg (not_lt.mpr htime), if_neg (by rw [hsig]; simp)]
      exact ⟨rfl, rfl⟩
  · intro h3
    have hlt : (validateBatch ch.validators sols).passed <
        requiredPass ctx.minPassCount ch.batchSize := by
      rw [hneed, h3]
      omega
    have hv : verdict ctx ch req now =
        ⟨400, false, some (poiMsg 3 5 4), checksSe, some (validateBatch ch.validators sols)⟩ := by
      unfold verdict
      rw [hsol]
      dsimp only
      rw [if_pos (by rw [hlen, hsize]), if_pos hlt, h3, hsize, hmin]
      rfl
    rw [hresp, hv]
    refine ⟨rfl, rfl, ?_, rfl⟩
    have : poiMsg 3 5 4 = "Proof of Intelligence failed: 3/5 correct (need 4)" := by decide
    rw [this]

/-- C4 witness: against the concrete five-validator entry with
`minPassCount = 4`, the 4-correct batch verifies and the 3-correct batch
fails with the threshold message. -/
theorem threshold_four_of_five_witness :
    (aapVerify ctxW ledgerW reqW 2000).2.verified = true ∧
    (aapVerify ctxW ledgerW reqW3 2000).2.error =
      some "Proof of Intelligence failed: 3/5 correct (need 4)" := by
  have h4 := threshold_four_of_five ctxW ledgerW reqW 2000 chW sols4W
    (by decide) rfl (by decide) rfl rfl rfl (by decide)
  have h3 := threshold_four_of_five ctxW ledgerW reqW3 2000 chW sols3W
    (by decide) rfl (by decide) rfl rfl rfl (by decide)
  refine ⟨((h4.1 (by decide)).2 (by norm_num [effectiveTime, serverTimeQ, reqRt, reqW, chW, ctxW]) rfl).1, ?_⟩
  exact (h3.2 (by decide)).2.2.1

/-- C5: with a valid, explicitly supplied type, `generate` is a function of
the nonce alone — two calls differing only in the random fallback draw
select that type, emit the same challenge string, and return validators
that agree on every answer string (all parameters come from nonce slices;
the draw is the source's only randomness). -/
theorem generate_deterministic_for_valid_type
    (nonce t : String) (r1 r2 : Nat)
    (ht : t ∈ getTypes) (hn : ValidNonce nonce) :
    (generate nonce (some t) r1).type = t ∧
    (generate nonce (some t) r1).challenge_string =
      (generate nonce (some t) r2).challenge_string ∧
    ∀ s : String, (generate nonce (some t) r1).validate s =
      (generate nonce (some t) r2).validate s := by
  have hne : t ≠ "" := by
    intro h
    rw [h] at ht
    exact absurd ht (by decide)
  have hc : getTypes.contains t = true := List.elem_eq_true_of_mem ht
  refine ⟨?_, ?_, fun s => ?_⟩ <;> simp only [generate, if_pos (And.intro hne hc)]

/-- C5 witness: two `generate` calls for `nlp_math` on the reference nonce
with different random draws agree on type and challenge string. -/
theorem generate_deterministic_for_valid_type_witness :
    (generate nonceW (some "nlp_math") 0).type = "nlp_math" ∧
    (generate nonceW (some "nlp_math") 0).challenge_string =
      (generate nonceW (some "nlp_math") 7).challenge_string := by
  have h := generate_deterministic_for_valid_type nonceW "nlp_math" 0 7
    (by decide) (by decide)
  exact ⟨h.1, h.2.1⟩

/-- C6: for every challenge type and valid nonce, the returned validator is
total on strings — it yields a boolean verdict on every input, and in
particular answers with no extractable/parsable embedded JSON object are
rejected with `false` (the regex-miss and caught-exception paths) rather
than by an exception. -/
theorem validator_total_on_strings
    (t nonce : String) (ht : t ∈ getTypes) (hn : ValidNonce nonce) (s : String) :
    ((challengeGenFor t nonce).validate s = false ∨
     (challengeGenFor t nonce).validate s = true) ∧
    (parseAnswerObj s = none → (challengeGenFor t nonce).validate s = false) := by
  obtain ⟨rest, hg⟩ := validate_shape t nonce ht
  refine ⟨(Bool.eq_false_or_eq_true _).symm, fun hp => ?_⟩
  rw [hg]
  exact mkValidate_parse_none _ _ _ hp

/-- C6 witness: the `nlp_math` validator on the reference nonce rejects an
answer containing no JSON object. -/
theorem validator_total_on_strings_witness :
    (challengeGenFor "nlp_math" nonceW).validate "no json object here" = false := by
  exact (validator_total_on_strings "nlp_math" nonceW (by decide) (by decide)
    "no json object here").2 rfl

/-- C7: for every challenge type and valid nonce, any answer whose embedded
JSON object does not carry a `salt` field strictly equal to the salt issued
with that challenge is rejected, whatever its other fields. -/
theorem validator_rejects_wrong_salt
    (t nonce : String) (ht : t ∈ getTypes) (hn : ValidNonce nonce)
    (s : String) (fields : List (String × JsVal))
    (hp : parseAnswerObj s = some fields)
    (hsalt : saltOkB fields (issuedSalt t nonce) = false) :
    (challengeGenFor t nonce).validate s = false := by
  obtain ⟨rest, hg⟩ := validate_shape t nonce ht
  rw [hg]
  exact mkValidate_salt_false _ _ _ _ hp hsalt

/-- C7 witness: an `nlp_math` answer with the correct result but a wrong
salt is rejected on the reference nonce. -/
theorem validator_rejects_wrong_salt_witness :
    (challengeGenFor "nlp_math" nonceW).validate
      "\x7b\"salt\":\"WRONG0\",\"result\":21.5\x7d" = false := by
  exact validator_rejects_wrong_salt "nlp_math" nonceW (by decide) (by decide)
    "\x7b\"salt\":\"WRONG0\",\"result\":21.5\x7d"
    [("salt", .str "WRONG0"), ("result", .num (43 / 2))] (by with_unfolding_all rfl)
    (by decide)

/-- C8 counterexample: for the nonce
`"a1b2c3d4e5f6a7b8c9d0e1f2a3b4c5d6"` the `nlp_math` generator does not
produce the claimed "Subtract 12 from 29" challenge, its expected value is
not 51, and the answer `{"result":51}` is rejected (it lacks the salt
echo), not accepted. -/
theorem math_scenario_counterexample :
    containsSubstrB (challengeGenFor "nlp_math" nonceW).challenge_string
      "Subtract 12 from 29" = false ∧
    getF (challengeGenFor "nlp_math" nonceW).expected "result" ≠ some (.num (51 : ℚ)) ∧
    (challengeGenFor "nlp_math" nonceW).validate "\x7b\"result\":51\x7d" = false := by
  refine ⟨by with_unfolding_all rfl, ?_, by with_unfolding_all rfl⟩
  have h : getF (challengeGenFor "nlp_math" nonceW).expected "result" =
      some (.num (43 / 2)) := by
    with_unfolding_all rfl
  rw [h]
  intro hcontra
  have h1 : JsVal.num (43 / 2) = JsVal.num (51 : ℚ) := by injection hcontra
  have h2 : (43 / 2 : ℚ) = 51 := by injection h1
  norm_num at h2

/-- C8 (amended): for nonce `"a1b2c3d4e5f6a7b8c9d0e1f2a3b4c5d6"` the
`nlp_math` generator produces the challenge "Add 35 and 8 together, then
divide by 2." with expected value 21.5 and salt `B2C3D4`; the answer
`{"salt":"B2C3D4","result":21.5}` passes its validator, while
`{"salt":"B2C3D4","result":50}` and the salt-less `{"result":50}` fail. -/
theorem math_scenario_amended :
    (challengeGenFor "nlp_math" nonceW).challenge_string =
      "[REQ-B2C3D4] Add 35 and 8 together, then divide by 2.\nResponse format: \x7b\"salt\": \"B2C3D4\", \"result\": number\x7d" ∧
    getF (challengeGenFor "nlp_math" nonceW).expected "result" = some (.num (21.5 : ℚ)) ∧
    (challengeGenFor "nlp_math" nonceW).validate
      "\x7b\"salt\":\"B2C3D4\",\"result\":21.5\x7d" = true ∧
    (challengeGenFor "nlp_math" nonceW).validate
      "\x7b\"salt\":\"B2C3D4\",\"result\":50\x7d" = false ∧
    (challengeGenFor "nlp_math" nonceW).validate "\x7b\"result\":50\x7d" = false := by
  exact ⟨by with_unfolding_all rfl, by with_unfolding_all rfl, by with_unfolding_all rfl,
    by with_unfolding_all rfl, by with_unfolding_all rfl⟩

/-- C9: evaluating `handleMessage` on the failing input — a session that
sent `ready` once (so challenge 0 is outstanding and `current` is still 0)
and then sends `ready` again — shows the second `ready` is accepted, not
rejected: challenge 0 is re-sent and `challengeStart` plus the per-challenge
deadline timer are restarted, because the guard `current !== 0` only
observes processed answers. -/
theorem ws_second_ready_accepted_before_first_answer :
    (handleMessage wsCfgW wsSessW (.ready none) 1000).1.current = 0 ∧
    (handleMessage wsCfgW wsSessW (.ready none) 1000).2 =
      [.challengeOut 0 7 "q0" 1200] ∧
    (handleMessage wsCfgW (handleMessage wsCfgW wsSessW (.ready none) 1000).1
      (.ready none) 5000).2 = [.challengeOut 0 7 "q0" 1200] ∧
    (handleMessage wsCfgW (handleMessage wsCfgW wsSessW (.ready none) 1000).1
      (.ready none) 5000).2 ≠ [.errorOut "ALREADY_STARTED" "Already started"] ∧
    (handleMessage wsCfgW (handleMessage wsCfgW wsSessW (.ready none) 1000).1
      (.ready none) 5000).1.challengeStart = some 5000 ∧
    (handleMessage wsCfgW (handleMessage wsCfgW wsSessW (.ready none) 1000).1
      (.ready none) 5000).1.timerDeadline = some 6300 := by
  exact ⟨rfl, rfl, rfl, by decide, rfl, rfl⟩

end AAP
